import Mathlib

/-!
Verification development for the euclipy deductive-geometry engine.

The definitions below are a shallow embedding of the Python sources:
- `core.py` (registry, successor forwarding, Measure, MeasurableProperty,
  Expression, solve_system),
- `geometricobjects.py` (Point, Line, Segment, Ray, Angle),
- `polygon.py` (Polygon, Triangle).

Modelling conventions:
- Points are their label strings.
- Simplified sympy expressions are modelled by `Lin`, a normalized linear
  combination of named symbols with integer coefficients.  Every expression
  that the modelled claims touch (measure values, residuals such as
  `old - new` and `m1 + m2 - 360`) is linear, and sympy's auto-simplification
  of such expressions is exactly normalization of the linear form.  The
  classification predicates `isNumber` / `isSymbol` mirror sympy's
  `is_number` / `is_symbol` for simplified expressions.
- The external algebra capability (`sympy.solve`) is an `Oracle` parameter:
  `none` models `NotImplementedError` ("cannot determine"), `some []` models
  "provably no solution", `some branches` a list of solution branches.
- Fallible operations return `Except Err`.
- Python object identity is modelled by numeric ids drawn from a shared
  `nextId` counter.
- Mutating cascades that terminate in the source because every angle's
  reflex flag is set at most once are given an explicit fuel argument;
  fuel exhaustion is a distinguished error that never occurs at the fuel
  used by the theorems below.
-/

/-- Errors raised by the modelled code. `valueError` covers Python
`ValueError` (including measure conflicts and reflex contradictions),
`colinearAmbiguous` and `colinearInconsistent` the two
`ColinearPointSequenceError` cases, `eqSystemError` the
`SystemOfEquationsError`, `runtimeErr` `RuntimeError` (and attribute
errors on systematically unreachable paths), `assertionErr` failed
`assert` statements, `unregisteredExpr` the
`SubstitutionIntoUnregisteredExpression` error, and `fuelEmpty` fuel
exhaustion of the model (not a behavior of the source). -/
inductive Err where
  | valueError
  | colinearAmbiguous
  | colinearInconsistent
  | eqSystemError
  | runtimeErr
  | assertionErr
  | unregisteredExpr
  | fuelEmpty
deriving DecidableEq

/-- Decidable equality of fallible results. -/
instance {ε α : Type} [DecidableEq ε] [DecidableEq α] : DecidableEq (Except ε α) := fun x y =>
  match x, y with
  | .ok a, .ok b =>
    if h : a = b then isTrue (by rw [h]) else isFalse (by intro hc; cases hc; exact h rfl)
  | .error e, .error f =>
    if h : e = f then isTrue (by rw [h]) else isFalse (by intro hc; cases hc; exact h rfl)
  | .ok _, .error _ => isFalse (by intro hc; cases hc)
  | .error _, .ok _ => isFalse (by intro hc; cases hc)

/-- Lexicographic comparison of character lists by code point, the
order Python uses on point labels. -/
def strLtAux : List Char → List Char → Bool
  | [], [] => false
  | [], _ :: _ => true
  | _ :: _, [] => false
  | a :: as, b :: bs =>
    if a.toNat < b.toNat then true
    else if b.toNat < a.toNat then false
    else strLtAux as bs

/-- Lexicographic order on point labels (`Point.__lt__`). -/
def labelLt (a b : String) : Bool := strLtAux a.data b.data

/-- Insert a coefficient for symbol `s` into a coefficient list kept sorted
by symbol with no zero coefficients. -/
def insertCoeff (s : String) (c : Int) : List (String × Int) → List (String × Int)
  | [] => if c = 0 then [] else [(s, c)]
  | (s', c') :: rest =>
    if s = s' then
      (if c + c' = 0 then rest else (s, c + c') :: rest)
    else if labelLt s s' then
      (if c = 0 then (s', c') :: rest else (s, c) :: (s', c') :: rest)
    else
      (s', c') :: insertCoeff s c rest

/-- A normalized linear expression: an integer constant plus a coefficient
list over named symbols.  This models a sympy expression after
`simplify`, restricted to the linear fragment used by the claims. -/
structure Lin where
  const : Int
  coeffs : List (String × Int)
deriving DecidableEq

/-- The numeral expression `n`. -/
def Lin.ofNum (n : Int) : Lin := ⟨n, []⟩

/-- The single-symbol expression `s`. -/
def Lin.ofSym (s : String) : Lin := ⟨0, [(s, 1)]⟩

/-- Model of sympy `is_number` on simplified expressions: no free symbols. -/
def Lin.isNumber (e : Lin) : Bool := e.coeffs.isEmpty

/-- Model of sympy `is_symbol` on simplified expressions: a bare Symbol atom. -/
def Lin.isSymbol (e : Lin) : Bool :=
  e.const = 0 &&
    match e.coeffs with
    | [(_, c)] => c = 1
    | _ => false

/-- Addition of normalized linear expressions (sympy `+` with simplification). -/
def Lin.add (a b : Lin) : Lin :=
  ⟨a.const + b.const, b.coeffs.foldl (fun acc p => insertCoeff p.1 p.2 acc) a.coeffs⟩

/-- Scalar multiple of a normalized linear expression. -/
def Lin.scale (c : Int) (a : Lin) : Lin :=
  ⟨c * a.const, if c = 0 then [] else a.coeffs.map (fun p => (p.1, c * p.2))⟩

/-- Subtraction of normalized linear expressions (sympy `-`). -/
def Lin.sub (a b : Lin) : Lin := a.add (Lin.scale (-1) b)

/-- Value of a coefficient list under an assignment of symbols to integers. -/
def evalCoeffs (σ : String → Int) : List (String × Int) → Int
  | [] => 0
  | (s, c) :: rest => c * σ s + evalCoeffs σ rest

/-- Value of a linear expression under an assignment of symbols to integers. -/
def Lin.eval (σ : String → Int) (e : Lin) : Int := e.const + evalCoeffs σ e.coeffs

/-- Simultaneous substitution of expressions for symbols
(sympy `expr.subs(replacements, simultaneous=True).simplify()`). -/
def Lin.substAll (e : Lin) (repl : List (String × Lin)) : Lin :=
  e.coeffs.foldl
    (fun acc p =>
      match repl.find? (fun q => q.1 == p.1) with
      | some q => acc.add (Lin.scale p.2 q.2)
      | none => acc.add ⟨0, [p]⟩)
    ⟨e.const, []⟩

/-- Registry of live Expression residuals together with the current values of
all registered Measures, the state acted on by `Expression.solve_system`,
`Expression.subs` and `Measure.substitute_symbol` in `core.py`. -/
structure World where
  exprs : List Lin
  measures : List Lin
deriving DecidableEq

/-- The external algebra-solving capability (`sympy.solve`): `none` models
`NotImplementedError` ("cannot determine"), `some []` "no solution",
otherwise a list of solution branches, each a partial assignment. -/
def Oracle : Type := List Lin → Option (List (List (String × Lin)))

/-- Live expressions with a nonzero residual
(`[e for e in cls.elements() if e.expr != 0]`). -/
def unresolvedExprs (w : World) : List Lin :=
  w.exprs.filter (fun e => !(e == Lin.ofNum 0))

/-- Model of `Measure.substitute_symbol`: rebind every Measure currently
holding symbol `s` to `v`. -/
def substituteSymbolW (w : World) (s : String) (v : Lin) : World :=
  { w with measures := w.measures.map (fun m => if m = Lin.ofSym s then v else m) }

/-- Sequential substitution of every replacement pair into the Measures,
as performed by the loop at the top of `Expression.subs`. -/
def substAllSymbols (w : World) (repl : List (String × Lin)) : World :=
  repl.foldl (fun w p => substituteSymbolW w p.1 p.2) w

/-- Bindings common to every solution branch
(`set.intersection(*[set(sol.items()) for sol in solutions])`). -/
def uniqueBindings : List (List (String × Lin)) → List (String × Lin)
  | [] => []
  | b :: rest => b.filter (fun p => rest.all (fun b' => b'.contains p))

/-- Per-branch non-unique bindings restricted to values without free symbols
(`non_uniques_without_free_symbols`). -/
def nonUniquesNoFree (sols : List (List (String × Lin))) : List (List (String × Lin)) :=
  sols.map (fun b =>
    (b.filter (fun p => !((uniqueBindings sols).contains p))).filter
      (fun p => p.2.coeffs.isEmpty))

/-- Add value `v` to the candidate set of variable `k`
(`solution_sets[key].add(val)`). -/
def insertSol (k : String) (v : Lin) : List (String × List Lin) → List (String × List Lin)
  | [] => [(k, [v])]
  | (k', vs) :: rest =>
    if k' = k then (k', if vs.contains v then vs else vs ++ [v]) :: rest
    else (k', vs) :: insertSol k v rest

/-- Candidate value sets of the non-unique variables (`solution_sets`). -/
def solutionSets (branches : List (List (String × Lin))) : List (String × List Lin) :=
  branches.foldl (fun acc b => b.foldl (fun acc p => insertSol p.1 p.2 acc) acc) []

/-- Candidate sets filtered to strictly positive values
(`non_uniques_solution_candidate`).  Only variables having at least one
unknown-free candidate value appear here. -/
def positiveCandidates (sols : List (List (String × Lin))) : List (String × List Lin) :=
  (solutionSets (nonUniquesNoFree sols)).map
    (fun g => (g.1, g.2.filter (fun v => decide (0 < v.const))))

/-- Mutually recursive entry points of the solver cascade:
`solve` is `Expression.solve_system`, `applyList` the substitution loop it
ends with, and `subsOne` is `Expression.subs` (whose successor-`Expression`
construction re-triggers `solve_system` from `Expression.__init__`). -/
inductive SolveCall where
  | solve
  | applyList (targets : List Lin) (repl : List (String × Lin))
  | subsOne (target : Lin) (repl : List (String × Lin))

/-- Fuel-indexed interpreter for the solver cascade.  The process-wide
target set of the goal-directed driver is empty in every scenario modelled
here, so the final target-scan of `solve_system` adds nothing and is
omitted.  Fuel exhaustion returns `Err.fuelEmpty`, which never occurs at
the fuel amounts used below. -/
def solveAux (oracle : Oracle) : Nat → SolveCall → World → Except Err (World × List (String × Lin))
  | 0, _, _ => .error .fuelEmpty
  | fuel + 1, .solve, w =>
    if unresolvedExprs w = [] then .ok (w, [])
    else
      match oracle (unresolvedExprs w) with
      | none => .ok (w, [])
      | some [] => .error .eqSystemError
      | some (b0 :: bs) =>
        let uniques := uniqueBindings (b0 :: bs)
        let uniquesNoFree := uniques.filter (fun p => p.2.coeffs.isEmpty)
        let uniquesAtomic := uniques.filter (fun p => p.2.isSymbol)
        if !(uniquesNoFree.all (fun p => decide (0 < p.2.const))) then .error .eqSystemError
        else
          let cands := positiveCandidates (b0 :: bs)
          if !(cands.all (fun g => g.2.length == 1)) then .error .eqSystemError
          else
            let nuSol := cands.map (fun g => (g.1, g.2.headD (Lin.ofNum 0)))
            let valid := uniquesNoFree ++ nuSol ++ uniquesAtomic
            match solveAux oracle fuel (.applyList (unresolvedExprs w) valid) w with
            | .error e => .error e
            | .ok (w', _) => .ok (w', valid)
  | fuel + 1, .applyList targets repl, w =>
    match targets with
    | [] => .ok (w, [])
    | t :: rest =>
      if w.exprs.contains t then
        match solveAux oracle fuel (.subsOne t repl) w with
        | .error e => .error e
        | .ok (w1, _) => solveAux oracle fuel (.applyList rest repl) w1
      else solveAux oracle fuel (.applyList rest repl) w
  | fuel + 1, .subsOne t repl, w =>
    if !(w.exprs.contains t) then .error .unregisteredExpr
    else
      let w1 := substAllSymbols w repl
      let result := t.substAll repl
      if result = t then .ok (w1, [])
      else if (result == Lin.ofNum 0) || !result.coeffs.isEmpty then
        let w2 := { w1 with exprs := (w1.exprs.erase t) ++ [result] }
        match solveAux oracle fuel .solve w2 with
        | .error e => .error e
        | .ok (w3, _) => .ok (w3, [])
      else .error .eqSystemError

/-- Model of `Expression.solve_system` acting on the live registry. -/
def solveSystem (oracle : Oracle) (fuel : Nat) (w : World) :
    Except Err (World × List (String × Lin)) :=
  solveAux oracle fuel .solve w

/-- A registered object as seen by `RegisteredObject.__getattribute__`:
its concrete kind, its `_successor` slot and its other attributes
(including any measure), with attribute values drawn from `α`. -/
structure Ent (α : Type) where
  kind : String
  succ : Option Nat
  attrs : String → α

/-- The heap of registered objects, by object id.  Objects removed from the
class registry by `replace` still exist on the heap and keep forwarding. -/
def Store (α : Type) : Type := Nat → Option (Ent α)

/-- Model of `RegisteredObject.__getattribute__`: any attribute other than
`_successor` and `_predecessor` is redirected to the successor, which
itself redirects, until an object with no successor is reached. -/
def getattrF {α : Type} : Nat → Store α → Nat → String → Option α
  | 0, _, _, _ => none
  | fuel + 1, st, i, name =>
    match st i with
    | none => none
    | some e =>
      match e.succ with
      | some j =>
        if name = "_successor" ∨ name = "_predecessor" then some (e.attrs name)
        else getattrF fuel st j name
      | none => some (e.attrs name)

/-- Model of `RegisteredObject.replace`: requires the same concrete kind
(the `assert type(self) is type(successor)`; violation yields `none`) and
marks the successor.  Removal from the class registry and subscriber
notification do not affect attribute reads and are not represented in the
heap. -/
def replaceE {α : Type} (st : Store α) (oldId newId : Nat) : Option (Store α) :=
  match st oldId, st newId with
  | some o, some n =>
    if o.kind = n.kind then
      some (fun i => if i = oldId then some { o with succ := some newId } else st i)
    else none
  | _, _ => none

/-- Model of registering an `Expression` (`Expression.__new__`): a new
residual equal (after simplification) to an already registered one and
having no predecessor is deduplicated, otherwise it is appended.  The
`solve_system` call in `Expression.__init__` is a state-preserving no-op
whenever the algebra capability cannot determine a solution (proved below
for the solver model), which is the regime of every scenario in this file,
so it is not repeated here. -/
def exprRegister (exprs : List Lin) (e : Lin) : List Lin :=
  if exprs.contains e then exprs else exprs ++ [e]

/-- Model of `MeasurableProperty.__set__` (`core.py` lines 620-647), the
write policy for `instance.measure = value`, acting on the instance's
current measure slot, the Expression registry and the auto-symbol counter
for name prefix `pre`.  The incoming value has already been validated and
simplified (`MeasurableProperty.validate`). -/
def writeMeasure (measure : Option Lin) (exprs : List Lin) (ctr : Nat)
    (pre : String) (v : Lin) : Except Err (Option Lin × List Lin × Nat) :=
  match measure with
  | none =>
    if v.isSymbol || v.isNumber then .ok (some v, exprs, ctr)
    else
      let c := ctr + 1
      let s := Lin.ofSym (pre ++ toString c)
      .ok (some s, exprRegister exprs (Lin.sub s v), c)
  | some old =>
    if v.isNumber && old.isNumber && !(v == old) then .error .valueError
    else .ok (some old, exprRegister exprs (Lin.sub old v), ctr)

/-- State of one measurable instance: its measure slot, the Expression
registry and the auto-symbol counter of its measure's symbol prefix. -/
structure PropState where
  measure : Option Lin
  exprs : List Lin
  ctr : Nat
deriving DecidableEq

/-- The measure-write policy packaged on a `PropState`, using the
`mSegment` prefix of `Segment.measure`. -/
def mpSet (ps : PropState) (v : Lin) : Except Err PropState :=
  match writeMeasure ps.measure ps.exprs ps.ctr "mSegment" v with
  | .ok (m, ex, c) => .ok ⟨m, ex, c⟩
  | .error e => .error e

/-- A registered Line: its registry key (the canonical point order at
registration or `update_key` time; merges update `points` without
re-keying the registry, so the key can go stale) and its current ordered
point sequence. -/
structure LineObj where
  id : Nat
  key : List String
  pts : List String
deriving DecidableEq

/-- A registered Segment, keyed by its lexically sorted endpoint pair. -/
structure SegObj where
  id : Nat
  ep1 : String
  ep2 : String
deriving DecidableEq

/-- A registered Ray: vertex and canonical direction point. -/
structure RayObj where
  id : Nat
  vertex : String
  pointingTo : String
deriving DecidableEq

/-- A registered Angle: its two spanning ray ids, its registry key triple
(far point of ray 1, vertex, far point of ray 2), the reflex flag, the
`_explementary_paired` flag and its measure slot. -/
structure AngleObj where
  id : Nat
  ray1 : Nat
  ray2 : Nat
  keyP1 : String
  keyV : String
  keyP2 : String
  reflex : Option Bool
  paired : Bool
  measure : Option Lin
deriving DecidableEq

/-- A registered Polygon (or Triangle), keyed by its canonical rotation.
Each concrete class owns its own registry in the source; this registry
stands for the registry of the one concrete class under discussion. -/
structure PolyObj where
  id : Nat
  pts : List String
deriving DecidableEq

/-- The geometric registries, the Expression registry, the shared id
counter standing for Python object identity, and the auto-symbol counter
of the `mAngle` prefix.  The algebra capability is modelled as unable to
determine solutions in every geometric scenario below (its benign no-op
behavior is proved for the solver model), so Expression registration in
this state is `exprRegister`. -/
structure GeomState where
  lines : List LineObj
  segs : List SegObj
  rays : List RayObj
  angles : List AngleObj
  polys : List PolyObj
  exprs : List Lin
  nextId : Nat
  angleSymCtr : Nat
deriving DecidableEq

/-- The empty registry. -/
def emptyGeom : GeomState := ⟨[], [], [], [], [], [], 0, 0⟩

/-- Line heap lookup by id. -/
def lineOf (st : GeomState) (i : Nat) : Option LineObj :=
  st.lines.find? (fun l => l.id == i)

/-- Ray heap lookup by id. -/
def rayOf (st : GeomState) (i : Nat) : Option RayObj :=
  st.rays.find? (fun r => r.id == i)

/-- Angle heap lookup by id. -/
def angleOf (st : GeomState) (i : Nat) : Option AngleObj :=
  st.angles.find? (fun a => a.id == i)

/-- Canonical ordering of a line's points (`Line.canonical_points`):
keep the sequence if the first point is lexically below the last,
otherwise reverse it. -/
def canonicalLinePts (pts : List String) : List String :=
  match pts.head?, pts.getLast? with
  | some a, some b => if labelLt a b then pts else pts.reverse
  | _, _ => pts

/-- Fueled model of the inner `order_preserving_merge`: walk both
sequences, always consuming whichever side's head is the next common
point, failing when neither head is common to the other sequence.  The
fuel is at least the sum of lengths plus one at every call site, which
makes exhaustion unreachable. -/
def opmFuel : Nat → List String → List String → Except Err (List String)
  | 0, _, _ => .error .fuelEmpty
  | _ + 1, [], sb => .ok sb
  | _ + 1, a :: sa, [] => .ok (a :: sa)
  | fuel + 1, a :: sa, b :: sb =>
    if a = b then
      match opmFuel fuel sa sb with
      | .error e => .error e
      | .ok m => .ok (a :: m)
    else if (b :: sb).contains a then
      match opmFuel fuel (a :: sa) sb with
      | .error e => .error e
      | .ok m => .ok (b :: m)
    else if (a :: sa).contains b then
      match opmFuel fuel sa (b :: sb) with
      | .error e => .error e
      | .ok m => .ok (a :: m)
    else .error .colinearAmbiguous

/-- The inner `order_preserving_merge` at adequate fuel. -/
def orderPreservingMerge (sa sb : List String) : Except Err (List String) :=
  opmFuel (sa.length + sb.length + 1) sa sb

/-- Model of `Line.bidirectional_order_preserving_merge`: align the two
sequences directly if their common subsequences agree, against the
reversal of the second if they agree reversed, and fail otherwise. -/
def bidirectionalMerge (sa sb : List String) : Except Err (List String) :=
  let ca := sa.filter (fun e => sb.contains e)
  let cb := sb.filter (fun e => sa.contains e)
  if ca = cb then orderPreservingMerge sa sb
  else if ca = cb.reverse then orderPreservingMerge sa sb.reverse
  else .error .colinearInconsistent

/-- Merge the point sequences of all overlapping registered lines into the
candidate sequence, in registry order (`for registered in reg_common_pts`). -/
def mergeAll : List LineObj → List String → Except Err (List String)
  | [], pts => .ok pts
  | l :: rest, pts =>
    match bidirectionalMerge l.pts pts with
    | .error e => .error e
    | .ok m => mergeAll rest m

/-- Model of `Segment.__new__`: two distinct points, canonically sorted
key, return the registered segment on a key hit, else register a new one.
A segment does not construct its Line (that happens only on demand). -/
def segNew (st : GeomState) (p q : String) : Except Err (GeomState × Nat) :=
  if p = q then .error .valueError
  else
    let c := if labelLt q p then (q, p) else (p, q)
    match st.segs.find? (fun s => s.ep1 == c.1 && s.ep2 == c.2) with
    | some s => .ok (st, s.id)
    | none =>
      .ok ({ st with segs := st.segs ++ [⟨st.nextId, c.1, c.2⟩], nextId := st.nextId + 1 }, st.nextId)

/-- Register segments from one point to each later point of the list. -/
def mkSegsPairsAux : GeomState → String → List String → Except Err GeomState
  | st, _, [] => .ok st
  | st, p, q :: rest =>
    match segNew st p q with
    | .error e => .error e
    | .ok (st1, _) => mkSegsPairsAux st1 p rest

/-- Eagerly construct a Segment for every pair of points on a line
(the comprehension at the end of `Line.__new__`). -/
def mkSegsAllPairs : GeomState → List String → Except Err GeomState
  | st, [] => .ok st
  | st, p :: rest =>
    match mkSegsPairsAux st p rest with
    | .error e => .error e
    | .ok st1 => mkSegsAllPairs st1 rest

/-- Append a line to the group of its `_identifier` (its point sequence),
preserving first-occurrence order. -/
def insertLineGrp (acc : List (List String × List LineObj)) (l : LineObj) :
    List (List String × List LineObj) :=
  match acc with
  | [] => [(l.pts, [l])]
  | (k, g) :: rest =>
    if k = l.pts then (k, g ++ [l]) :: rest else (k, g) :: insertLineGrp rest l

/-- Group registered lines by their structural identity. -/
def groupLinesByPts (ls : List LineObj) : List (List String × List LineObj) :=
  ls.foldl insertLineGrp []

/-- Model of `Line.remove_duplicates`: with exactly one duplicate group,
all group members but the first are replaced by the first (Lines define
no measurable properties, so `copy_measures_from` copies nothing); two or
more groups fail the source's assertion; zero groups return `None` to a
caller that immediately dereferences it, modelled as `runtimeErr`. -/
def removeDupLines (st : GeomState) : Except Err (GeomState × Nat) :=
  match (groupLinesByPts st.lines).filter (fun g => decide (g.2.length > 1)) with
  | [] => .error .runtimeErr
  | [(_, g)] =>
    match g with
    | retain :: others =>
      .ok ({ st with lines := st.lines.filter (fun l => others.all (fun o => !(o.id == l.id))) }, retain.id)
    | [] => .error .runtimeErr
  | _ => .error .assertionErr

/-- Model of `Line.__new__`: at least two distinct points; canonicalize;
return a registered line on a registry-key hit; otherwise merge with all
lines sharing at least two points (updating their point sequences in
place, without re-keying), collapsing them through `remove_duplicates`
when more than one was involved, or register a fresh line; finally
construct a Segment for every pair of points of the resulting line. -/
def lineNew (st : GeomState) (pts : List String) : Except Err (GeomState × Nat) :=
  if pts.length < 2 ∨ ¬ pts.Nodup then .error .valueError
  else
    let cpts := canonicalLinePts pts
    match st.lines.find? (fun l => l.key == cpts) with
    | some l => .ok (st, l.id)
    | none =>
      let common := st.lines.filter
        (fun l => decide ((l.pts.filter (fun p => pts.contains p)).length > 1))
      match common with
      | [] =>
        let obj : LineObj := ⟨st.nextId, cpts, cpts⟩
        let st1 := { st with lines := st.lines ++ [obj], nextId := st.nextId + 1 }
        match mkSegsAllPairs st1 cpts with
        | .error e => .error e
        | .ok st2 => .ok (st2, obj.id)
      | c0 :: crest =>
        match mergeAll (c0 :: crest) pts with
        | .error e => .error e
        | .ok merged =>
          let mcanon := canonicalLinePts merged
          let updated := st.lines.map
            (fun l => if (c0 :: crest).any (fun c => c.id == l.id) then { l with pts := mcanon } else l)
          let st1 := { st with lines := updated }
          if crest.isEmpty then
            match mkSegsAllPairs st1 mcanon with
            | .error e => .error e
            | .ok st2 => .ok (st2, c0.id)
          else
            match removeDupLines st1 with
            | .error e => .error e
            | .ok (st2, rid) =>
              match lineOf st2 rid with
              | none => .error .runtimeErr
              | some lr =>
                match mkSegsAllPairs st2 lr.pts with
                | .error e => .error e
                | .ok st3 => .ok (st3, rid)

/-- Model of `Ray.__new__` with `Line.canonical_ray_direction_point`:
construct the line through vertex and direction point, canonicalize the
direction to the outermost known point of that line on the vertex's far
side, return a registered ray on a key hit, else register a new ray (the
source then constructs `Line((vertex, pointing_to))` again to subscribe to
its change notifications; the subscription itself is not modelled since no
modelled scenario changes a line under a live ray). -/
def rayNew (st : GeomState) (v p : String) : Except Err (GeomState × Nat) :=
  if v = p then .error .valueError
  else
    match lineNew st [v, p] with
    | .error e => .error e
    | .ok (st1, lid) =>
      match lineOf st1 lid with
      | none => .error .runtimeErr
      | some l =>
        let vi := l.pts.indexOf v
        let pi' := l.pts.indexOf p
        match (if vi < pi' then l.pts.getLast? else if pi' < vi then l.pts.head? else none) with
        | none => .error .runtimeErr
        | some pt =>
          match st1.rays.find? (fun r => r.vertex == v && r.pointingTo == pt) with
          | some r => .ok (st1, r.id)
          | none =>
            match lineNew st1 [v, pt] with
            | .error e => .error e
            | .ok (st2, _) =>
              .ok ({ st2 with rays := st2.rays ++ [⟨st2.nextId, v, pt⟩], nextId := st2.nextId + 1 }, st2.nextId)

/-- Model of the two-ray branch of `Angle.__new__` without a reflex
argument: canonical key (far point of ray 1, vertex, far point of ray 2),
registered angle on a key hit, fresh angle otherwise (reflex unset,
`_explementary_paired` false, no measure). -/
def angleNewRays (st : GeomState) (r1id r2id : Nat) : Except Err (GeomState × Nat) :=
  match rayOf st r1id, rayOf st r2id with
  | some r1, some r2 =>
    match st.angles.find?
      (fun a => a.keyP1 == r1.pointingTo && a.keyV == r1.vertex && a.keyP2 == r2.pointingTo) with
    | some a => .ok (st, a.id)
    | none =>
      .ok ({ st with
             angles := st.angles ++ [⟨st.nextId, r1id, r2id, r1.pointingTo, r1.vertex, r2.pointingTo, none, false, none⟩],
             nextId := st.nextId + 1 }, st.nextId)
  | _, _ => .error .runtimeErr

/-- Model of the `Angle.explementary` property: the Angle spanned by the
same rays in reversed order, constructed through the registry. -/
def explementaryOf (st : GeomState) (aid : Nat) : Except Err (GeomState × Nat) :=
  match angleOf st aid with
  | none => .error .runtimeErr
  | some a => angleNewRays st a.ray2 a.ray1

/-- Set the measure slot of the angle with the given id. -/
def setMeasureField (st : GeomState) (aid : Nat) (m : Option Lin) : GeomState :=
  { st with angles := st.angles.map (fun a => if a.id = aid then { a with measure := m } else a) }

/-- Set the reflex flag of the angle with the given id. -/
def setReflexField (st : GeomState) (aid : Nat) (b : Bool) : GeomState :=
  { st with angles := st.angles.map (fun a => if a.id = aid then { a with reflex := some b } else a) }

/-- Set the `_explementary_paired` flag of the angle with the given id. -/
def setPairedField (st : GeomState) (aid : Nat) : GeomState :=
  { st with angles := st.angles.map (fun a => if a.id = aid then { a with paired := true } else a) }

/-- Model of reading `angle.measure` through `MeasurableProperty.__get__`:
auto-allocate a fresh uniquely named symbol when no measure is set yet,
then return the current value. -/
def readMeasureAuto (st : GeomState) (aid : Nat) : GeomState × Lin :=
  match angleOf st aid with
  | none => (st, Lin.ofNum 0)
  | some a =>
    match a.measure with
    | some mv => (st, mv)
    | none =>
      let c := st.angleSymCtr + 1
      let s := Lin.ofSym ("mAngle" ++ toString c)
      (setMeasureField { st with angleSymCtr := c } aid (some s), s)

/-- The reflex flag of an angle (`Angle.reflex` property; unset is `none`). -/
def angleReflex (st : GeomState) (aid : Nat) : Option Bool :=
  match angleOf st aid with
  | some a => a.reflex
  | none => none

/-- Model of `Line.intersection_point`: the common point if and only if
exactly one point is shared. -/
def intersectionPoint (l1 l2 : LineObj) : Option String :=
  match l1.pts.filter (fun p => l2.pts.contains p) with
  | [x] => some x
  | _ => none

/-- Construct `Ray((intersection, point))` for each listed point distinct
from the intersection, keeping `none` placeholders for the rest
(the ray comprehension of `nonreflex_angles_formed_by_intersection`). -/
def mkRayOpts : GeomState → String → List String → Except Err (GeomState × List (Option Nat))
  | st, _, [] => .ok (st, [])
  | st, x, p :: rest =>
    if p = x then
      match mkRayOpts st x rest with
      | .error e => .error e
      | .ok (st1, l) => .ok (st1, none :: l)
    else
      match rayNew st x p with
      | .error e => .error e
      | .ok (st1, rid) =>
        match mkRayOpts st1 x rest with
        | .error e => .error e
        | .ok (st2, l) => .ok (st2, some rid :: l)

/-- Construct an Angle for every circularly adjacent pair of rays in which
both rays exist. -/
def mkPairAngles : GeomState → List (Option Nat × Option Nat) → Except Err (GeomState × List Nat)
  | st, [] => .ok (st, [])
  | st, (some r1, some r2) :: rest =>
    match angleNewRays st r1 r2 with
    | .error e => .error e
    | .ok (st1, aid) =>
      match mkPairAngles st1 rest with
      | .error e => .error e
      | .ok (st2, l) => .ok (st2, aid :: l)
  | st, _ :: rest => mkPairAngles st rest

/-- Replace each listed angle by its explementary partner
(`angles = [angle.explementary for angle in angles]`). -/
def explList : GeomState → List Nat → Except Err (GeomState × List Nat)
  | st, [] => .ok (st, [])
  | st, a :: rest =>
    match explementaryOf st a with
    | .error e => .error e
    | .ok (st1, e1) =>
      match explList st1 rest with
      | .error e => .error e
      | .ok (st2, l) => .ok (st2, e1 :: l)

/-- The three mutually recursive operations of the reflex-setting cascade:
`rset` is the `Angle.reflex` setter, `rlist` the `angle.reflex = False`
loop of `nonreflex_angles_formed_by_intersection`, and `nonreflex` that
method itself. -/
inductive CascadeCall where
  | rset (aid : Nat) (b : Bool)
  | rlist (objs : List Nat)
  | nonreflex (l1 l2 : Nat)

/-- Fueled interpreter for the reflex cascade.  `rset` on an unset angle
records the flag, sets the explementary partner to the negation, and
re-derives the non-reflex angles formed at the intersection of the two
spanning rays' lines; `rset` on a set angle is a no-op when consistent and
a `ValueError` otherwise.  The cascade terminates in the source because
each step sets a previously unset reflex flag; fuel exhaustion never
occurs at the fuel used below. -/
def cascade : Nat → CascadeCall → GeomState → Except Err GeomState
  | 0, _, _ => .error .fuelEmpty
  | fuel + 1, .rset aid b, st =>
    match angleOf st aid with
    | none => .error .runtimeErr
    | some a =>
      match a.reflex with
      | some r => if r = b then .ok st else .error .valueError
      | none =>
        match explementaryOf (setReflexField st aid b) aid with
        | .error e => .error e
        | .ok (st2, eid) =>
          match cascade fuel (.rset eid (!b)) st2 with
          | .error e => .error e
          | .ok st3 =>
            match rayOf st3 a.ray1, rayOf st3 a.ray2 with
            | some r1, some r2 =>
              match lineNew st3 [r1.vertex, r1.pointingTo] with
              | .error e => .error e
              | .ok (st4, l1) =>
                match lineNew st4 [r2.vertex, r2.pointingTo] with
                | .error e => .error e
                | .ok (st5, l2) => cascade fuel (.nonreflex l1 l2) st5
            | _, _ => .error .runtimeErr
  | fuel + 1, .rlist objs, st =>
    match objs with
    | [] => .ok st
    | o :: rest =>
      match cascade fuel (.rset o false) st with
      | .error e => .error e
      | .ok st1 => cascade fuel (.rlist rest) st1
  | fuel + 1, .nonreflex l1id l2id, st =>
    match lineOf st l1id, lineOf st l2id with
    | some l1, some l2 =>
      match intersectionPoint l1 l2 with
      | none => .error .runtimeErr
      | some x =>
        match l1.pts.head?, l2.pts.head?, l1.pts.getLast?, l2.pts.getLast? with
        | some a0, some b0, some a1, some b1 =>
          match mkRayOpts st x [a0, b0, a1, b1] with
          | .error e => .error e
          | .ok (st1, ropts) =>
            match ropts with
            | [r0, r1, r2, r3] =>
              match mkPairAngles st1 [(r0, r1), (r1, r2), (r2, r3), (r3, r0)] with
              | .error e => .error e
              | .ok (st2, aids) =>
                let refl := aids.map (fun i => angleReflex st2 i)
                if refl.any (fun r => r.isSome) then
                  match (if refl.any (fun r => r == some true) then explList st2 aids else .ok (st2, aids)) with
                  | .error e => .error e
                  | .ok (st3, aids') => cascade fuel (.rlist aids') st3
                else .ok st2
            | _ => .error .runtimeErr
        | _, _, _, _ => .error .runtimeErr
    | _, _ => .error .runtimeErr

/-- Model of the three-point branch of `Angle.__new__` with the optional
reflex argument: three distinct points, two spanning rays sharing the
middle vertex, the two-ray construction, then the reflex setter when a
reflex value is supplied (on fresh and registered angles alike). -/
def angleNew (fuel : Nat) (st : GeomState) (pts : List String) (rflx : Option Bool) :
    Except Err (GeomState × Nat) :=
  match pts with
  | [p, q, r] =>
    if ¬ pts.Nodup then .error .valueError
    else
      match rayNew st q p with
      | .error e => .error e
      | .ok (st1, r1) =>
        match rayNew st1 q r with
        | .error e => .error e
        | .ok (st2, r2) =>
          match angleNewRays st2 r1 r2 with
          | .error e => .error e
          | .ok (st3, aid) =>
            match rflx with
            | none => .ok (st3, aid)
            | some b =>
              match cascade fuel (.rset aid b) st3 with
              | .error e => .error e
              | .ok st4 => .ok (st4, aid)
  | _ => .error .valueError

/-- Model of `Measure.objects_measured_by` restricted to angles: all
angles whose measure currently holds the symbol `v` (empty for any
non-symbol value).  No modelled scenario shares a measure symbol across
kinds. -/
def measuredByAngles (st : GeomState) (v : Lin) : List Nat :=
  if v.isSymbol then (st.angles.filter (fun a => a.measure == some v)).map (fun a => a.id)
  else []

/-- One step of the explementary-pairing loop of `Angle.post_set_measure`:
an unpaired angle reads its measure, constructs its explementary partner,
reads the partner's measure (auto-allocating a symbol when unset),
registers the residual `measure + partner measure - 360`, and marks both
angles paired. -/
def pairOne (st : GeomState) (oid : Nat) : Except Err GeomState :=
  match angleOf st oid with
  | none => .error .runtimeErr
  | some a =>
    if a.paired then .ok st
    else
      let m1 := readMeasureAuto st oid
      match explementaryOf m1.1 oid with
      | .error e => .error e
      | .ok (st2, eid) =>
        let m2 := readMeasureAuto st2 eid
        let st3 := { m2.1 with
          exprs := exprRegister (m2.1).exprs (Lin.sub (Lin.add m1.2 m2.2) (Lin.ofNum 360)) }
        .ok (setPairedField (setPairedField st3 oid) eid)

/-- The pairing loop over `[self] + Measure.objects_measured_by(value)`. -/
def pairLoop : GeomState → List Nat → Except Err GeomState
  | st, [] => .ok st
  | st, o :: rest =>
    match pairOne st o with
    | .error e => .error e
    | .ok st1 => pairLoop st1 rest

/-- Model of `Angle.post_set_measure`: when the angle's (just written)
measure is a concrete number, force the reflex flag from the value's
position relative to 180 (raising on contradiction with an already set
flag), reject values outside the open interval 0 to 360, and in every
case run the explementary-pairing loop.  Truth-testing the comparison of
a non-number value against 180 raises in the source and is modelled as
`valueError`. -/
def postSetMeasure (fuel : Nat) (st : GeomState) (aid : Nat) (v : Lin) : Except Err GeomState :=
  let m0 := readMeasureAuto st aid
  let stA := m0.1
  let step1 : Except Err GeomState :=
    if m0.2.isNumber then
      if ¬ v.isNumber then .error .valueError
      else
        let rfx := angleReflex stA aid
        let afterReflex : Except Err GeomState :=
          if v.const < 180 then
            (if rfx = some true then .error .valueError else cascade fuel (.rset aid false) stA)
          else if 180 < v.const then
            (if rfx = some false then .error .valueError else cascade fuel (.rset aid true) stA)
          else
            (if rfx = none then cascade fuel (.rset aid false) stA else .ok stA)
        match afterReflex with
        | .error e => .error e
        | .ok stB =>
          if 360 ≤ v.const then .error .valueError
          else if v.const ≤ 0 then .error .valueError
          else .ok stB
    else .ok stA
  match step1 with
  | .error e => .error e
  | .ok stC => pairLoop stC (aid :: measuredByAngles stC v)

/-- Model of writing `angle.measure = v`: the `MeasurableProperty.__set__`
policy (`writeMeasure`, with the `mAngle` prefix) followed by the
`post_set_measure` hook. -/
def setAngleMeasure (fuel : Nat) (st : GeomState) (aid : Nat) (v : Lin) : Except Err GeomState :=
  match angleOf st aid with
  | none => .error .runtimeErr
  | some a =>
    match writeMeasure a.measure st.exprs st.angleSymCtr "mAngle" v with
    | .error e => .error e
    | .ok (m, ex, c) =>
      postSetMeasure fuel (setMeasureField { st with exprs := ex, angleSymCtr := c } aid m) aid v

/-- Scenario of claim C1: construct Line('A X B C D'), then
Line('C F E B A'), and record both returned ids together with the live
line registry's point sequences. -/
def c1Trace : Option (Nat × Nat × List (List String)) :=
  match lineNew emptyGeom ["A", "X", "B", "C", "D"] with
  | .error _ => none
  | .ok (st1, i1) =>
    match lineNew st1 ["C", "F", "E", "B", "A"] with
    | .error _ => none
    | .ok (st2, i2) => some (i1, i2, st2.lines.map (fun l => l.pts))

/-- Scenario of claim C10: a fresh Angle('D E F') (reflex unset) whose
measure is set to exactly 180; record its reflex flag and its
explementary partner's reflex flag (checking that the partner lookup does
not disturb the state). -/
def c10Trace : Option (Option Bool × Option Bool) :=
  match angleNew 16 emptyGeom ["D", "E", "F"] none with
  | .error _ => none
  | .ok (st1, aid) =>
    match setAngleMeasure 16 st1 aid (Lin.ofNum 180) with
    | .error _ => none
    | .ok st2 =>
      match explementaryOf st2 aid with
      | .error _ => none
      | .ok (st3, eid) =>
        if st3 = st2 then some (angleReflex st2 aid, angleReflex st2 eid) else none

/-- Registry of the claim C5 counterexample: one unresolved residual
x - y. -/
def c5World : World := ⟨[⟨0, [("x", 1), ("y", -1)]⟩], []⟩

/-- Solution branches of the claim C5 counterexample: `x = y` in one
branch and `x = -y` in the other (as sympy returns for `x**2 - y**2`),
so the non-unique variable x has no unknown-free candidate at all. -/
def c5Branches : List (List (String × Lin)) :=
  [[("x", Lin.ofSym "y")], [("x", ⟨0, [("y", -1)]⟩)]]

/-- Oracle of the claim C5 counterexample. -/
def c5Oracle : Oracle := fun _ => some c5Branches

/-- Oracle of the claim C5 witness: a single branch binding x to -5. -/
def c5wOracle : Oracle := fun _ => some [[("x", Lin.ofNum (-5))]]

/-- Registry of the claim C5 witness: the unresolved residual x + 5. -/
def c5wWorld : World := ⟨[⟨5, [("x", 1)]⟩], []⟩

/-- Everything an angle carries except its reflex flag.  The reflex
cascade changes only reflex flags and appends fresh objects, so these
components are preserved for the angles already registered. -/
def angleShadow (a : AngleObj) :
    Nat × Nat × Nat × String × String × String × Bool × Option Lin :=
  (a.id, a.ray1, a.ray2, a.keyP1, a.keyV, a.keyP2, a.paired, a.measure)

/-- State evolution produced by the reflex cascade: the Expression
registry is untouched, rays are only appended, and the registered angles
keep everything except (possibly) their reflex flags, with fresh angles
appended at the end. -/
def Pres (st st' : GeomState) : Prop :=
  st'.exprs = st.exprs ∧
  (∃ ext, st'.rays = st.rays ++ ext) ∧
  (∃ ext, st'.angles.map angleShadow = st.angles.map angleShadow ++ ext)

/-- Heap of the claim C2 witness: three Segment-kind objects with distinct
`measure` attribute values. -/
def c2Store : Store Int := fun i =>
  if i = 0 then some ⟨"Segment", none, fun n => if n = "measure" then 5 else 0⟩
  else if i = 1 then some ⟨"Segment", none, fun n => if n = "measure" then 7 else 1⟩
  else if i = 2 then some ⟨"Segment", none, fun n => if n = "measure" then 9 else 2⟩
  else none

theorem Lin.eval_ofSym (σ : String → Int) (s : String) :
    (Lin.ofSym s).eval σ = σ s := by
  simp [Lin.ofSym, Lin.eval, evalCoeffs]

theorem Lin.not_isNumber_of_isSymbol (e : Lin) (h : e.isSymbol = true) :
    e.isNumber = false := by
  rcases e with ⟨c, l⟩
  cases l with
  | nil => simp [Lin.isSymbol] at h
  | cons p rest => simp [Lin.isNumber]

/-- Claim C1: constructing Line('A X B C D') and then Line('C F E B A')
yields a single Line object -- both constructor calls return the identical
instance (id 0) -- and after the second call that Line's point sequence is
A X B E F C D, canonicalized to start at the lexically smallest endpoint. -/
theorem c1_line_merge_closure :
    c1Trace = some (0, 0, [["A", "X", "B", "E", "F", "C", "D"]]) := by decide

/-- Claim C10: setting a fresh Angle's measure to exactly 180 while its
reflex flag is unset sets the flag to `false` (non-reflex) and the
explementary partner's flag to `true`; the boundary value 180 is treated
as non-reflex. -/
theorem c10_boundary_180_nonreflex :
    c10Trace = some (some false, some true) := by decide

/-- Claim C3: the measure-write policy of `MeasurableProperty.__set__`.
With a concrete numeric current measure, writing a concrete number raises
exactly when the two numbers differ; with no measure set, a number or a
bare symbol is bound directly without creating any Expression; in every
other case a residual Expression equating the current value and the
written value is registered while the stored measure is left in place
(for an unset measure and a compound value, the current value is a
freshly allocated auto symbol). -/
theorem c3_measure_write_policy :
    (∀ (exprs : List Lin) (ctr : Nat) (pre : String) (m v : Lin),
      m.isNumber = true → v.isNumber = true →
      ((∃ e, writeMeasure (some m) exprs ctr pre v = .error e) ↔ v ≠ m)) ∧
    (∀ (exprs : List Lin) (ctr : Nat) (pre : String) (v : Lin),
      v.isNumber = true ∨ v.isSymbol = true →
      writeMeasure none exprs ctr pre v = .ok (some v, exprs, ctr)) ∧
    (∀ (exprs : List Lin) (ctr : Nat) (pre : String) (v : Lin),
      v.isNumber = false → v.isSymbol = false →
      writeMeasure none exprs ctr pre v =
        .ok (some (Lin.ofSym (pre ++ toString (ctr + 1))),
             exprRegister exprs (Lin.sub (Lin.ofSym (pre ++ toString (ctr + 1))) v),
             ctr + 1)) ∧
    (∀ (exprs : List Lin) (ctr : Nat) (pre : String) (m v : Lin),
      ¬ (v.isNumber = true ∧ m.isNumber = true) →
      writeMeasure (some m) exprs ctr pre v =
        .ok (some m, exprRegister exprs (Lin.sub m v), ctr)) := by
  refine ⟨?_, ?_, ?_, ?_⟩
  · intro exprs ctr pre m v hm hv
    by_cases hvm : v = m
    · subst hvm
      simp [writeMeasure, hm, hv]
    · simp [writeMeasure, hm, hv, hvm]
  · intro exprs ctr pre v h
    rcases h with h | h <;> simp [writeMeasure, h]
  · intro exprs ctr pre v h1 h2
    simp [writeMeasure, h1, h2]
  · intro exprs ctr pre m v h
    have hc : (v.isNumber && m.isNumber && !(v == m)) = false := by
      cases hv : v.isNumber <;> cases hm : m.isNumber <;> simp_all
    simp [writeMeasure, hc]

/-- Witness for claim C3: a number bound directly on an unset measure, and
a conflicting concrete rewrite raising. -/
theorem c3_measure_write_policy_witness :
    writeMeasure none [] 0 "mSegment" (Lin.ofNum 5) = .ok (some (Lin.ofNum 5), [], 0) ∧
    (∃ e, writeMeasure (some (Lin.ofNum 5)) [] 0 "mSegment" (Lin.ofNum 7) = .error e) :=
  ⟨c3_measure_write_policy.2.1 [] 0 "mSegment" (Lin.ofNum 5) (Or.inl (by decide)),
   (c3_measure_write_policy.1 [] 0 "mSegment" (Lin.ofNum 5) (Lin.ofNum 7)
      (by decide) (by decide)).mpr (by decide)⟩

/-- Claim C4: `solve_system` returns an empty binding without touching the
state when every registered residual is zero; it returns an empty binding
as a benign no-op when the algebra capability cannot determine a solution;
and it raises the system-inconsistency error when the capability returns
zero solution branches for the live system. -/
theorem c4_solve_system_outcomes (oracle : Oracle) (fuel : Nat) (w : World) :
    ((∀ e ∈ w.exprs, e = Lin.ofNum 0) → solveSystem oracle (fuel + 1) w = .ok (w, [])) ∧
    (unresolvedExprs w ≠ [] → oracle (unresolvedExprs w) = none →
      solveSystem oracle (fuel + 1) w = .ok (w, [])) ∧
    (unresolvedExprs w ≠ [] → oracle (unresolvedExprs w) = some [] →
      solveSystem oracle (fuel + 1) w = .error .eqSystemError) := by
  refine ⟨?_, ?_, ?_⟩
  · intro h
    have hu : unresolvedExprs w = [] := by
      apply List.filter_eq_nil_iff.mpr
      intro e he
      simp [h e he]
    simp [solveSystem, solveAux, hu]
  · intro h1 h2
    simp [solveSystem, solveAux, h1, h2]
  · intro h1 h2
    simp [solveSystem, solveAux, h1, h2]

/-- Witness for claim C4: the three outcomes at concrete registries. -/
theorem c4_solve_system_outcomes_witness :
    solveSystem (fun _ => none) 1 ⟨[], []⟩ = .ok (⟨[], []⟩, []) ∧
    solveSystem (fun _ => none) 1 ⟨[Lin.ofSym "x"], []⟩ = .ok (⟨[Lin.ofSym "x"], []⟩, []) ∧
    solveSystem (fun _ => some []) 1 ⟨[Lin.ofSym "x"], []⟩ = .error .eqSystemError :=
  ⟨(c4_solve_system_outcomes (fun _ => none) 0 ⟨[], []⟩).1 (by simp),
   (c4_solve_system_outcomes (fun _ => none) 0 ⟨[Lin.ofSym "x"], []⟩).2.1 (by decide) rfl,
   (c4_solve_system_outcomes (fun _ => some []) 0 ⟨[Lin.ofSym "x"], []⟩).2.2 (by decide) rfl⟩

/-- Counterexample to claim C5 as stated: with the live residual x - y and
the algebra capability returning the two branches x = y and x = -y (as it
does for x**2 - y**2), the variable x has non-unique solutions and its
candidate set restricted to strictly-positive, unknown-free values is
empty -- not exactly one -- yet `solve_system` returns successfully with
an empty binding instead of raising: variables whose candidates all
contain unknowns are skipped by the source, not rejected. -/
theorem c5_skipped_symbolic_candidates :
    unresolvedExprs c5World ≠ [] ∧
    c5Oracle (unresolvedExprs c5World) = some c5Branches ∧
    uniqueBindings c5Branches = [] ∧
    c5Branches.map (fun b => b.map (fun p => p.1)) = [["x"], ["x"]] ∧
    positiveCandidates c5Branches = [] ∧
    solveSystem c5Oracle 3 c5World = .ok (c5World, []) := by decide

/-- Claim C5 as amended: `solve_system` never hands back a non-positive
unknown-free binding -- every unknown-free value in a returned binding set
is strictly positive; a unique unknown-free binding that is not strictly
positive raises the system-inconsistency error (before anything is
applied, since the check precedes the substitution pass); and whenever
some variable's strictly-positive unknown-free candidate set (among
variables having at least one unknown-free candidate) does not have
exactly one element, the system-inconsistency error is raised. -/
theorem c5_solver_positivity_amended (oracle : Oracle) (fuel : Nat) (w : World) :
    (∀ w' b, solveSystem oracle (fuel + 1) w = .ok (w', b) →
      ∀ p ∈ b, p.2.coeffs = [] → 0 < p.2.const) ∧
    (∀ sols, oracle (unresolvedExprs w) = some sols → sols ≠ [] →
      unresolvedExprs w ≠ [] →
      (∃ p ∈ uniqueBindings sols, p.2.coeffs = [] ∧ p.2.const ≤ 0) →
      solveSystem oracle (fuel + 1) w = .error .eqSystemError) ∧
    (∀ sols, oracle (unresolvedExprs w) = some sols → sols ≠ [] →
      unresolvedExprs w ≠ [] →
      (∃ g ∈ positiveCandidates sols, g.2.length ≠ 1) →
      solveSystem oracle (fuel + 1) w = .error .eqSystemError) := by
  refine ⟨?_, ?_, ?_⟩
  · intro w' b hok p hp hc
    unfold solveSystem solveAux at hok
    by_cases hu : unresolvedExprs w = []
    · rw [if_pos hu] at hok
      cases hok
      simp at hp
    · rw [if_neg hu] at hok
      cases ho : oracle (unresolvedExprs w) with
      | none =>
        rw [ho] at hok
        cases hok
        simp at hp
      | some sols =>
        rw [ho] at hok
        cases sols with
        | nil => cases hok
        | cons b0 bs =>
          cases hA : ((uniqueBindings (b0 :: bs)).filter
              (fun p => p.2.coeffs.isEmpty)).all (fun p => decide (0 < p.2.const)) with
          | false => simp [hA] at hok
          | true =>
            cases hB : (positiveCandidates (b0 :: bs)).all (fun g => g.2.length == 1) with
            | false => simp [hA, hB] at hok
            | true =>
              simp only [hA, hB, Bool.not_true, Bool.false_eq_true, if_false] at hok
              cases happ : solveAux oracle fuel
                  (.applyList (unresolvedExprs w)
                    (((uniqueBindings (b0 :: bs)).filter (fun p => p.2.coeffs.isEmpty)) ++
                     (positiveCandidates (b0 :: bs)).map (fun g => (g.1, g.2.headD (Lin.ofNum 0))) ++
                     (uniqueBindings (b0 :: bs)).filter (fun p => p.2.isSymbol))) w with
              | error e => rw [happ] at hok; cases hok
              | ok res =>
                rw [happ] at hok
                cases hok
                rcases List.mem_append.mp hp with hp1 | hp3
                · rcases List.mem_append.mp hp1 with hp1 | hp2
                  · have := List.all_eq_true.mp hA p hp1
                    simpa using this
                  · rcases List.mem_map.mp hp2 with ⟨g, hg, hgp⟩
                    have hlen := List.all_eq_true.mp hB g hg
                    have hlen1 : g.2.length = 1 := by simpa using hlen
                    rcases List.length_eq_one.mp hlen1 with ⟨v, hv⟩
                    rcases List.mem_map.mp hg with ⟨g0, _, hg0⟩
                    have hvmem : v ∈ g.2 := by rw [hv]; exact List.mem_singleton_self v
                    have hvpos : decide (0 < v.const) = true := by
                      rw [← hg0] at hvmem
                      simp only at hvmem
                      exact (List.mem_filter.mp hvmem).2
                    have : p.2 = v := by rw [← hgp]; simp [hv]
                    rw [this]
                    simpa using hvpos
                · have hsym : p.2.isSymbol = true := by
                    have := List.of_mem_filter hp3
                    simpa using this
                  have := Lin.not_isNumber_of_isSymbol p.2 hsym
                  rw [Lin.isNumber, hc] at this
                  simp at this
  · intro sols ho hne hu hbad
    cases sols with
    | nil => exact absurd rfl hne
    | cons b0 bs =>
      have hA : ((uniqueBindings (b0 :: bs)).filter
          (fun p => p.2.coeffs.isEmpty)).all (fun p => decide (0 < p.2.const)) = false := by
        cases hA : ((uniqueBindings (b0 :: bs)).filter
            (fun p => p.2.coeffs.isEmpty)).all (fun p => decide (0 < p.2.const)) with
        | false => rfl
        | true =>
          exfalso
          rcases hbad with ⟨p, hpmem, hc, hle⟩
          have hpf : p ∈ (uniqueBindings (b0 :: bs)).filter (fun p => p.2.coeffs.isEmpty) :=
            List.mem_filter.mpr ⟨hpmem, by simp [hc]⟩
          have := List.all_eq_true.mp hA p hpf
          simp at this
          omega
      simp [solveSystem, solveAux, hu, ho, hA]
  · intro sols ho hne hu hbad
    cases sols with
    | nil => exact absurd rfl hne
    | cons b0 bs =>
      cases hA : ((uniqueBindings (b0 :: bs)).filter
          (fun p => p.2.coeffs.isEmpty)).all (fun p => decide (0 < p.2.const)) with
      | false => simp [solveSystem, solveAux, hu, ho, hA]
      | true =>
        have hB : (positiveCandidates (b0 :: bs)).all (fun g => g.2.length == 1) = false := by
          cases hB : (positiveCandidates (b0 :: bs)).all (fun g => g.2.length == 1) with
          | false => rfl
          | true =>
            exfalso
            rcases hbad with ⟨g, hgmem, hglen⟩
            have := List.all_eq_true.mp hB g hgmem
            simp at this
            exact hglen this
        simp [solveSystem, solveAux, hu, ho, hA, hB]

/-- Witness for the amended claim C5: a unique binding x = -5 raises the
system-inconsistency error. -/
theorem c5_solver_positivity_witness :
    solveSystem c5wOracle 1 c5wWorld = .error .eqSystemError :=
  (c5_solver_positivity_amended c5wOracle 0 c5wWorld).2.1 [[("x", Lin.ofNum (-5))]]
    rfl (by decide) (by decide) ⟨("x", Lin.ofNum (-5)), by decide, by decide, by decide⟩

/-- Claim C2: after `replace(old, new)` between entities of the same
concrete kind, every attribute read on `old` other than the successor
slots (hence including its measure) returns the current value of the
final survivor, and the forwarding is transitive across a further
`replace(new, third)`. -/
theorem c2_replacement_transparency {α : Type} (st : Store α) (a b c : Nat)
    (ea eb ec : Ent α)
    (hea : st a = some ea) (heb : st b = some eb) (hec : st c = some ec)
    (hsb : eb.succ = none) (hsc : ec.succ = none)
    (hab : a ≠ b) (hbc : b ≠ c) (hac : a ≠ c)
    (hk1 : ea.kind = eb.kind) (hk2 : eb.kind = ec.kind) :
    ∃ st1 st2, replaceE st a b = some st1 ∧ replaceE st1 b c = some st2 ∧
      ∀ name, name ≠ "_successor" → name ≠ "_predecessor" →
        getattrF 2 st1 a name = some (eb.attrs name) ∧
        getattrF 3 st2 a name = some (ec.attrs name) ∧
        getattrF 3 st2 a name = getattrF 1 st2 c name := by
  refine ⟨fun i => if i = a then some { ea with succ := some b } else st i,
          fun i => if i = b then some { eb with succ := some c }
                   else if i = a then some { ea with succ := some b } else st i,
          ?_, ?_, ?_⟩
  · simp [replaceE, hea, heb, hk1]
  · have hb' : (if b = a then some { ea with succ := some b } else st b) = some eb := by
      rw [if_neg (Ne.symm hab), heb]
    have hc' : (if c = a then some { ea with succ := some b } else st c) = some ec := by
      rw [if_neg (Ne.symm hac), hec]
    simp only [replaceE, hb', hc', if_pos hk2]
  · intro name hn1 hn2
    refine ⟨?_, ?_, ?_⟩
    · simp [getattrF, Ne.symm hab, heb, hsb, hn1, hn2]
    · simp [getattrF, Ne.symm hab, Ne.symm hac, Ne.symm hbc, hab, hec, hsc, hn1, hn2]
    · simp [getattrF, Ne.symm hab, Ne.symm hac, Ne.symm hbc, hab, hec, hsc, hn1, hn2]

/-- Witness for claim C2: three concrete Segment-kind objects; after the
two replacements, reading `measure` through the first returns the third
object's value. -/
theorem c2_replacement_transparency_witness :
    ∃ st1 st2, replaceE c2Store 0 1 = some st1 ∧ replaceE st1 1 2 = some st2 ∧
      getattrF 3 st2 0 "measure" = some 9 ∧
      getattrF 3 st2 0 "measure" = getattrF 1 st2 2 "measure" := by
  obtain ⟨st1, st2, h1, h2, h3⟩ := c2_replacement_transparency c2Store 0 1 2
    ⟨"Segment", none, fun n => if n = "measure" then 5 else 0⟩
    ⟨"Segment", none, fun n => if n = "measure" then 7 else 1⟩
    ⟨"Segment", none, fun n => if n = "measure" then 9 else 2⟩
    rfl rfl rfl rfl rfl (by decide) (by decide) (by decide) rfl rfl
  obtain ⟨ha, hb, hc⟩ := h3 "measure" (by decide) (by decide)
  exact ⟨st1, st2, h1, h2, by simpa using hb, hc⟩

theorem Pres.refl (st : GeomState) : Pres st st :=
  ⟨rfl, ⟨[], by simp⟩, ⟨[], by simp⟩⟩

